import Mathlib

/-!
Verification of the gold-price repricing engine in
`src/app/routes/app._index.jsx` (the current revision, the first document in
that file).  The JavaScript is shallowly embedded: machine floats are modelled
as exact rationals (every value reachable from the decimal inputs of the
program is a rational whose denominator divides a power of ten, so the
rational model is exact on them), fallible parsing returns `Option`, and the
asynchronous orchestration of the `action` handler is modelled as a
deterministic function of an environment that supplies the collaborator
responses.  Values that only exist on the floating-point fringe (JavaScript
`Infinity`, exponent-form rendering of huge numbers) are outside the model and
are noted at the definitions concerned.
-/

namespace GoldPrice

/- The four arithmetic primitives on `Rat` ship marked irreducible, which
stops `decide` from evaluating closed pricing statements; restoring the
default reducibility lets the kernel compute with them. -/
attribute [local semireducible] Rat.mul Rat.inv Rat.add Rat.sub Rat.ofScientific

/-! ### Character and string primitives mirroring the JavaScript built-ins -/

/-- Whitespace as used by `String.prototype.trim`, `parseFloat` and the regex
class `\s`; the model covers the ASCII whitespace characters. -/
def jsWs (c : Char) : Bool := c == ' ' || c == '\t' || c == '\n' || c == '\r'

/-- Decimal digit, the regex class `\d`. -/
def jsDigit (c : Char) : Bool := '0' ≤ c && c ≤ '9'

/-- Helper for `String.prototype.startsWith` on one character. -/
def headIs (l : List Char) (c : Char) : Bool :=
  match l with
  | [] => false
  | a :: _ => a == c

/-- Does `hay` begin with `sub` (character lists)? -/
def beginsWith : List Char → List Char → Bool
  | _, [] => true
  | [], _ :: _ => false
  | a :: hs, b :: ns => a == b && beginsWith hs ns

/-- Substring containment on character lists, `String.prototype.includes`. -/
def containsSub : List Char → List Char → Bool
  | [], sub => sub.isEmpty
  | a :: hs, sub => beginsWith (a :: hs) sub || containsSub hs sub

/-- `hay.includes(sub)` of JavaScript. -/
def jsIncludes (hay sub : String) : Bool := containsSub hay.data sub.data

/-- `String.prototype.toLowerCase`; ASCII case mapping, written over the
character list so that it evaluates inside the kernel. -/
def jsToLower (s : String) : String := String.mk (s.data.map Char.toLower)

/-- Both-ends whitespace removal, `String.prototype.trim`. -/
def trimBoth (l : List Char) : List Char :=
  ((l.dropWhile jsWs).reverse.dropWhile jsWs).reverse

/-- `s.trim()` of JavaScript. -/
def jsTrim (s : String) : String := String.mk (trimBoth s.data)

/-- Digits to a natural number, most significant first. -/
def digitsToNat (ds : List Char) : ℕ :=
  ds.foldl (fun acc c => acc * 10 + (c.toNat - '0'.toNat)) 0

/-! ### Number parsing and rendering -/

/-- The JavaScript `parseFloat`: skip leading whitespace, optional sign, then
the longest prefix shaped `digits [. digits] [e|E [sign] digits]`; `none`
models `NaN` (no digit found).  The literal `Infinity`, which `parseFloat`
does accept, has no rational counterpart and is treated as unparsable; no
claim exercises it. -/
def jsParseFloat (s : String) : Option ℚ :=
  let l0 := s.data.dropWhile jsWs
  let neg := headIs l0 '-'
  let l1 := if neg || headIs l0 '+' then l0.drop 1 else l0
  let ds1 := l1.takeWhile jsDigit
  let l2 := l1.drop ds1.length
  let hasDot := headIs l2 '.'
  let ds2 := if hasDot then (l2.drop 1).takeWhile jsDigit else []
  let l3 := if hasDot then (l2.drop 1).drop ds2.length else l2
  if ds1.isEmpty && ds2.isEmpty then none
  else
    let sgn : ℚ := if neg then -1 else 1
    let mant : ℚ := (digitsToNat (ds1 ++ ds2) : ℚ) / (10 : ℚ) ^ ds2.length
    let e : ℤ :=
      if headIs l3 'e' || headIs l3 'E' then
        let r := l3.drop 1
        let enneg := headIs r '-'
        let r1 := if enneg || headIs r '+' then r.drop 1 else r
        let eds := r1.takeWhile jsDigit
        if eds.isEmpty then 0
        else (if enneg then -1 else 1) * (digitsToNat eds : ℤ)
      else 0
    some (sgn * mant * (10 : ℚ) ^ e)

/-- Remove as many factors `p` from `n` as possible; first fuelled argument
bounds the recursion.  Returns (count, remaining cofactor). -/
def stripFactor (p : ℕ) : ℕ → ℕ → ℕ × ℕ
  | 0, n => (0, n)
  | fuel + 1, n =>
    if n % p == 0 && n ≠ 0 && p > 1 then
      let r := stripFactor p fuel (n / p)
      (r.1 + 1, r.2)
    else (0, n)

/-- Left-pad a numeral string with zeros to the requested length. -/
def padZeros (s : String) (k : ℕ) : String :=
  if s.length ≥ k then s
  else String.mk (List.replicate (k - s.length) '0') ++ s

/-- Default number-to-string conversion of JavaScript (template literals,
`String(x)`), exact on every value whose reduced denominator divides a power
of ten — which covers every number the program can compute from its decimal
inputs.  Other rationals (unreachable here) render as a fraction, and the
exponent notation JavaScript uses beyond 1e21 is not modelled. -/
def qRender (q : ℚ) : String :=
  let sgn := if q < 0 then "-" else ""
  let n := q.num.natAbs
  let d := q.den
  let p2 := stripFactor 2 d d
  let p5 := stripFactor 5 p2.2 p2.2
  if p5.2 ≠ 1 then sgn ++ toString n ++ "/" ++ toString d
  else
    let k := max p2.1 p5.1
    let scaled := n * 10 ^ k / d
    if k = 0 then sgn ++ toString scaled
    else
      let ip := scaled / 10 ^ k
      let fp := scaled % 10 ^ k
      sgn ++ toString ip ++ "." ++ padZeros (toString fp) k

/-- The JavaScript `x.toFixed(2)`: two-decimal fixed-point rendering, rounding
half away from zero on the magnitude (ties cannot arise from the exact decimal
values this program computes). -/
def toFixed2 (q : ℚ) : String :=
  let sgn := if q < 0 then "-" else ""
  let r := |q| * 100 + 1 / 2
  let n := (r.num / (r.den : ℤ)).toNat
  let ip := n / 100
  let fp := n % 100
  sgn ++ toString ip ++ "." ++ (if fp < 10 then "0" ++ toString fp else toString fp)

/-! ### JSON values and `JSON.parse`

The metafield store may hold JSON-encoded objects; `getNumericMetafieldValue`
attempts `JSON.parse` on values whose trimmed text opens with a brace or a
bracket.  The grammar below is RFC 8259 JSON (strict number syntax, later
duplicate object keys win); `none` models a thrown `SyntaxError`.  Raw control
characters inside string literals, which `JSON.parse` rejects, are accepted
here — no claim depends on them. -/

/-- A parsed JSON value. -/
inductive Json where
  | null
  | bool (b : Bool)
  | num (q : ℚ)
  | str (s : String)
  | arr (xs : List Json)
  | obj (fields : List (String × Json))
deriving Repr, BEq

/-- Property access `fields.value` on a parsed object: with duplicate keys,
`JSON.parse` keeps the last occurrence. -/
def objGet (fields : List (String × Json)) (k : String) : Option Json :=
  fields.reverse.lookup k

/-- JSON whitespace (space, tab, line feed, carriage return). -/
def jsonWs (c : Char) : Bool := c == ' ' || c == '\t' || c == '\n' || c == '\r'

/-- Decode one simple escape character (everything but `\u`); `none` for an
invalid escape. -/
def escChar (c : Char) : Option Char :=
  if c == 'n' then some '\n'
  else if c == 't' then some '\t'
  else if c == 'r' then some '\r'
  else if c == 'b' then some (Char.ofNat 8)
  else if c == 'f' then some (Char.ofNat 12)
  else if c == '"' || c == '\\' || c == '/' then some c
  else none

/-- Value of one hexadecimal digit (via the code-point offsets 48, 87, 55 of
the three digit ranges). -/
def hexNib (c : Char) : Option ℕ :=
  if jsDigit c then some (c.toNat - 48)
  else if 'a' ≤ c && c ≤ 'f' then some (c.toNat - 87)
  else if 'A' ≤ c && c ≤ 'F' then some (c.toNat - 55)
  else none

/-- Body of a string literal after its opening quote, decoded forward into
the content characters plus the remaining input (`\u` escapes become the code
point directly; surrogate pairing is not modelled). -/
def strBody : List Char → Option (List Char × List Char)
  | [] => none
  | '"' :: rest => some ([], rest)
  | '\\' :: rest =>
    match rest with
    | 'u' :: h1 :: h2 :: h3 :: h4 :: more =>
      match hexNib h1, hexNib h2, hexNib h3, hexNib h4 with
      | some a, some b, some c, some d =>
        (strBody more).map
          (fun pr => (Char.ofNat (a * 4096 + b * 256 + c * 16 + d) :: pr.1, pr.2))
      | _, _, _, _ => none
    | e :: more =>
      match escChar e with
      | some ch => (strBody more).map (fun pr => (ch :: pr.1, pr.2))
      | none => none
    | [] => none
  | c :: rest => (strBody rest).map (fun pr => (c :: pr.1, pr.2))

/-- JSON number: `-? (0 | [1-9][0-9]*) (. [0-9]+)? ([eE][+-]?[0-9]+)?`,
parsed exactly into a rational. -/
def jsonNumber (l : List Char) : Option (ℚ × List Char) :=
  let sgn : ℚ := if headIs l '-' then -1 else 1
  let l1 := if headIs l '-' then l.drop 1 else l
  let ds1 := l1.takeWhile jsDigit
  if ds1.isEmpty then none
  else if ds1.length > 1 && headIs ds1 '0' then none
  else
    let l2 := l1.drop ds1.length
    let fracOk : Bool := match l2 with
      | '.' :: r => !(r.takeWhile jsDigit).isEmpty
      | _ => true
    if !fracOk then none
    else
      let ds2 : List Char := match l2 with
        | '.' :: r => r.takeWhile jsDigit
        | _ => []
      let l3 : List Char := match l2 with
        | '.' :: r => r.drop ds2.length
        | _ => l2
      let expOk : Bool := match l3 with
        | c :: r =>
          if c == 'e' || c == 'E' then
            let r1 : List Char := match r with
              | '-' :: r2 => r2
              | '+' :: r2 => r2
              | _ => r
            !(r1.takeWhile jsDigit).isEmpty
          else true
        | [] => true
      if !expOk then none
      else
        let e : ℤ × List Char := match l3 with
          | c :: r =>
            if c == 'e' || c == 'E' then
              let esgn : ℤ := match r with
                | '-' :: _ => -1
                | _ => 1
              let r1 : List Char := match r with
                | '-' :: r2 => r2
                | '+' :: r2 => r2
                | _ => r
              let eds := r1.takeWhile jsDigit
              (esgn * (digitsToNat eds : ℤ), r1.drop eds.length)
            else (0, l3)
          | [] => (0, [])
        let mant : ℚ := (digitsToNat (ds1 ++ ds2) : ℚ) / (10 : ℚ) ^ ds2.length
        some (sgn * mant * (10 : ℚ) ^ e.1, e.2)

mutual

/-- One JSON value at the head of the input (leading whitespace allowed);
fuelled to make totality evident.  The three keyword literals are recognized
with `beginsWith`; anything not a string, array, object or keyword is handed
to the number grammar. -/
def jsonValue (fuel : ℕ) (l : List Char) : Option (Json × List Char) :=
  match fuel with
  | 0 => none
  | fuel + 1 =>
    let t := l.dropWhile jsonWs
    if beginsWith t "null".data then some (.null, t.drop 4)
    else if beginsWith t "true".data then some (.bool true, t.drop 4)
    else if beginsWith t "false".data then some (.bool false, t.drop 5)
    else
      match t with
      | '"' :: r => (strBody r).map (fun pr => (Json.str (String.mk pr.1), pr.2))
      | '[' :: r =>
        match r.dropWhile jsonWs with
        | ']' :: r2 => some (.arr [], r2)
        | r2 => (jsonItems fuel r2).map (fun pr => (Json.arr pr.1, pr.2))
      | '{' :: r =>
        match r.dropWhile jsonWs with
        | '}' :: r2 => some (.obj [], r2)
        | r2 => (jsonFields fuel r2).map (fun pr => (Json.obj pr.1, pr.2))
      | r => (jsonNumber r).map (fun pr => (Json.num pr.1, pr.2))

/-- One-or-more comma-separated array items up to the closing bracket. -/
def jsonItems (fuel : ℕ) (l : List Char) : Option (List Json × List Char) :=
  match fuel with
  | 0 => none
  | fuel + 1 =>
    (jsonValue fuel l).bind (fun pr =>
      match pr.2.dropWhile jsonWs with
      | ',' :: r2 => (jsonItems fuel r2).map (fun qr => (pr.1 :: qr.1, qr.2))
      | ']' :: r2 => some ([pr.1], r2)
      | _ => none)

/-- One-or-more `"key": value` members up to the closing brace. -/
def jsonFields (fuel : ℕ) (l : List Char) :
    Option (List (String × Json) × List Char) :=
  match fuel with
  | 0 => none
  | fuel + 1 =>
    match l.dropWhile jsonWs with
    | '"' :: r =>
      (strBody r).bind (fun kp =>
        match kp.2.dropWhile jsonWs with
        | ':' :: r2 =>
          (jsonValue fuel r2).bind (fun vp =>
            match vp.2.dropWhile jsonWs with
            | ',' :: r3 =>
              (jsonFields fuel r3).map
                (fun fp => ((String.mk kp.1, vp.1) :: fp.1, fp.2))
            | '}' :: r3 => some ([(String.mk kp.1, vp.1)], r3)
            | _ => none)
        | _ => none)
    | _ => none

end

/-- The JavaScript `JSON.parse`: a single document with nothing but whitespace
after it; `none` models the thrown `SyntaxError`. -/
def jsonParse (s : String) : Option Json :=
  match jsonValue (s.data.length + 1) s.data with
  | some (j, rest) => if (rest.dropWhile jsonWs).isEmpty then some j else none
  | none => none

mutual

/-- String coercion `String(x)` applied by `parseFloat` to a non-string
argument: arrays join their coerced elements with commas, objects print as
`[object Object]`, numbers use the default rendering. -/
def jsCoerceToString : Json → String
  | .null => "null"
  | .bool true => "true"
  | .bool false => "false"
  | .num q => qRender q
  | .str s => s
  | .arr xs => String.intercalate "," (jsCoerceItems xs)
  | .obj _ => "[object Object]"

/-- Element coercion inside an array: `null` (and `undefined`) coerce to the
empty string when joined. -/
def jsCoerceItems : List Json → List String
  | [] => []
  | .null :: r => "" :: jsCoerceItems r
  | j :: r => jsCoerceToString j :: jsCoerceItems r

end

/-! ### Data model

The GraphQL edge/node nesting of the snapshot is flattened: a list of
metafield nodes stands for `metafields.edges`, a list of variant nodes for
`variants.edges`. -/

/-- One metafield record; `nspace` embeds the `namespace` field (a reserved
word in Lean). -/
structure MetafieldNode where
  nspace : String
  key : String
  value : String
deriving Repr, DecidableEq

/-- One product variant from the snapshot. -/
structure VariantNode where
  id : String
  title : String
  metafields : List MetafieldNode
deriving Repr, DecidableEq

/-- One product from the snapshot. -/
structure ProductNode where
  id : String
  title : String
  metafields : List MetafieldNode
  variants : List VariantNode
deriving Repr, DecidableEq

/-- One entry of the `variants` array sent to `productVariantsBulkUpdate`:
both prices already serialized as two-decimal strings. -/
structure VariantUpdate where
  id : String
  price : String
  compareAtPrice : String
deriving Repr, DecidableEq

/-! ### Metafield helpers (`getMetafieldValue`, `getNumericMetafieldValue`) -/

/-- `getMetafieldValue`: first record with the requested key in the `custom`
namespace, else `null`. -/
def getMetafieldValue (metafields : List MetafieldNode) (key : String) :
    Option String :=
  (metafields.find? (fun m => m.key == key && m.nspace == "custom")).map
    (fun m => m.value)

/-- `getNumericMetafieldValue`: a falsy (missing or empty) value is `0`; a
value whose trimmed text opens with a brace or bracket is tried as JSON, and a
decoded object carrying a `value` member returns `parseFloat` of that member
(coerced to a string first) with `|| 0` collapsing `NaN`; every other case —
decode failure, non-object decode, object without the member, plain text —
falls through to `parseFloat` of the raw value with the same `|| 0` default. -/
def getNumericMetafieldValue (metafields : List MetafieldNode) (key : String) :
    ℚ :=
  match getMetafieldValue metafields key with
  | none => 0
  | some val =>
    if val == "" then 0
    else
      let trimmed := jsTrim val
      let structured : Option ℚ :=
        if headIs trimmed.data '{' || headIs trimmed.data '[' then
          match jsonParse trimmed with
          | some (.obj fields) =>
            match objGet fields "value" with
            | some jv => some ((jsParseFloat (jsCoerceToString jv)).getD 0)
            | none => none
          | _ => none
        else none
      match structured with
      | some q => q
      | none => (jsParseFloat val).getD 0

/-! ### Pricing configuration hardcoded in the `action` handler -/

/-- Multipliers for gold karat, in object-literal key order (string keys keep
insertion order in JavaScript). -/
def priceMap : List (String × ℚ) :=
  [("24k", 1), ("22k", 925/1000), ("18k", 76/100), ("14k", 6/10),
   ("9k", 385/1000)]

/-- `Object.keys(priceMap)` in iteration order. -/
def priceMapKeys : List String := priceMap.map (fun kv => kv.1)

/-- Discount factors for the diamond portion only. -/
def discountMap : List (String × ℚ) :=
  [("10%", 9/10), ("12%", 88/100), ("15%", 85/100)]

/-- The three admissible finish colors. -/
def allowedColors : List String := ["yellow gold", "rose gold", "white"]

/-! ### Gem cost aggregation -/

/-- Slot type from a product metafield, trimmed when present (the
`typeof … === "string"` guard always holds in the model). -/
def diamondTypeOf (p : ProductNode) (key : String) : Option String :=
  (getMetafieldValue p.metafields key).map jsTrim

/-- The three `(type, weight)` slot pairs before the truthiness filter. -/
def slotPairs (p : ProductNode) : List (Option String × ℚ) :=
  [(diamondTypeOf p "diamond_1", getNumericMetafieldValue p.metafields "diamond_weight_1"),
   (diamondTypeOf p "diamond_2", getNumericMetafieldValue p.metafields "diamond_weight_2"),
   (diamondTypeOf p "diamond_3", getNumericMetafieldValue p.metafields "diamond_weight_3")]

/-- `selectedDiamonds`: slots whose type is truthy (present and non-empty
after the trim above). -/
def selectedDiamondsOf (p : ProductNode) : List (String × ℚ) :=
  (slotPairs p).filterMap (fun tw =>
    match tw.1 with
    | some t => if t == "" then none else some (t, tw.2)
    | none => none)

/-- `totalDiamondPrice`: reduce over the selected slots; the per-unit price of
a type missing from `diamondPrices` is `0` via `|| 0`, and the type string is
trimmed once more inside the reduce. -/
def totalDiamondPriceOf (diamondPrices : List (String × ℚ)) (p : ProductNode) :
    ℚ :=
  (selectedDiamondsOf p).foldl
    (fun sum tw => sum + ((diamondPrices.lookup (jsTrim tw.1)).getD 0) * tw.2) 0

/-! ### Variant classification -/

/-- First filter: the lower-cased variant title contains one of the allowed
colors. -/
def colorMatches (v : VariantNode) : Bool :=
  allowedColors.any (fun c => jsIncludes (jsToLower v.title) c)

/-- Second filter: the lower-cased variant title contains some karat key. -/
def karatMatches (v : VariantNode) : Bool :=
  priceMapKeys.any (fun k => jsIncludes (jsToLower v.title) k)

/-- A variant survives both filters and reaches the price computation. -/
def variantQualifies (v : VariantNode) : Bool := colorMatches v && karatMatches v

/-- `karatKey`: the first karat key (in `priceMap` declaration order) contained
in the lower-cased title. -/
def karatKeyOf (v : VariantNode) : Option String :=
  priceMapKeys.find? (fun k => jsIncludes (jsToLower v.title) k)

/-! ### Discount token extraction

The regex `/(\d+)\s*%/i` matched against the raw title: the scan tries each
position left to right; a match needs a maximal digit run, optional
whitespace, then a percent sign (backtracking the greedy `\d+` cannot help,
since a digit is neither whitespace nor `%`).  `match[0].replace(/\s+/g, "")`
then yields the digits immediately followed by `%`. -/

/-- Left-to-right scan for the first regex match, returning its digit run. -/
def discountScan : List Char → Option (List Char)
  | [] => none
  | c :: rest =>
    if jsDigit c then
      let ds := (c :: rest).takeWhile jsDigit
      let r1 := (c :: rest).drop ds.length
      let ws := r1.takeWhile jsWs
      match r1.drop ws.length with
      | '%' :: _ => some ds
      | _ => discountScan rest
    else discountScan rest

/-- The whitespace-stripped discount token (`discountFound`) when the title
matches the discount regex. -/
def jsDiscountToken (title : String) : Option String :=
  (discountScan title.data).map (fun ds => String.mk (ds ++ ['%']))

/-! ### Price composition per variant -/

/-- Every quantity the per-variant block computes, plus its log line and the
update record it returns. -/
structure VariantComputation where
  karatKey : Option String
  weight : ℚ
  makingChargesForWeight : ℚ
  goldAndMakingCost : ℚ
  compareAtPriceQ : ℚ
  discountedDiamondCost : ℚ
  updatedPriceQ : ℚ
  log : String
  update : VariantUpdate
deriving Repr, DecidableEq

/-- The body of the per-variant `.map` callback. -/
def computeVariant (price makingCharges totalDiamondPrice : ℚ)
    (v : VariantNode) : VariantComputation :=
  let karatKey := karatKeyOf v
  let weight := getNumericMetafieldValue v.metafields "weight"
  let weightLog :=
    if weight = 0 then " | Warning: weight is missing or zero"
    else " | Weight: " ++ qRender weight
  let makingChargesForWeight := if 0 < weight then makingCharges * weight else 0
  let goldAndMakingCost :=
    price * ((karatKey.bind (fun k => priceMap.lookup k)).getD 0) * weight +
      makingChargesForWeight
  let compareAtPriceQ := goldAndMakingCost + totalDiamondPrice
  let dd : ℚ × String :=
    match jsDiscountToken v.title with
    | none => (totalDiamondPrice, "")
    | some tok =>
      match discountMap.lookup tok with
      | none => (totalDiamondPrice, "")
      | some f =>
        if f = 0 then (totalDiamondPrice, "")
        else (totalDiamondPrice * f,
          " | Match discount: \"" ++ tok ++ "\" => factor " ++ qRender f)
  let discountedDiamondCost := dd.1
  let updatedPriceQ := goldAndMakingCost + discountedDiamondCost
  let log :=
    "Variant: \"" ++ v.title ++ "\"" ++ weightLog ++ dd.2 ++
    " | Gold+Making: " ++ toFixed2 goldAndMakingCost ++
    " | Diamond: " ++ toFixed2 discountedDiamondCost ++
    " | Final: " ++ toFixed2 updatedPriceQ ++
    " | CompareAtPrice: " ++ toFixed2 compareAtPriceQ
  { karatKey := karatKey
    weight := weight
    makingChargesForWeight := makingChargesForWeight
    goldAndMakingCost := goldAndMakingCost
    compareAtPriceQ := compareAtPriceQ
    discountedDiamondCost := discountedDiamondCost
    updatedPriceQ := updatedPriceQ
    log := log
    update :=
      { id := v.id
        price := toFixed2 updatedPriceQ
        compareAtPrice := toFixed2 compareAtPriceQ } }

/-! ### Per-product pipeline -/

/-- What the synchronous part of one product's callback produces: the debug
lines it pushes, the variant updates it will send (empty when the product is
skipped), and its total diamond price. -/
structure ProductOutcome where
  logsPre : List String
  updates : List VariantUpdate
  totalDiamondPrice : ℚ
deriving Repr, DecidableEq

/-- The synchronous body of one element of `productData.map`: gem
aggregation, its product-level log line, then the filter-filter-map variant
pipeline with one log line per kept variant, and the skip line when nothing
qualified. -/
def processProduct (price making : ℚ) (diamondPrices : List (String × ℚ))
    (p : ProductNode) : ProductOutcome :=
  let td := totalDiamondPriceOf diamondPrices p
  let productLine := "Product: " ++ p.title ++ " — totalDiamondPrice: " ++ qRender td
  let kept := (p.variants.filter colorMatches).filter karatMatches
  let comps := kept.map (computeVariant price making td)
  let updates := comps.map (fun c => c.update)
  let vlogs := comps.map (fun c => c.log)
  if updates.isEmpty then
    { logsPre := productLine :: vlogs ++
        ["No recognized variants for product \"" ++ p.title ++ "\"."]
      updates := []
      totalDiamondPrice := td }
  else
    { logsPre := productLine :: vlogs
      updates := updates
      totalDiamondPrice := td }

/-! ### The action handler

The handler is asynchronous; its JavaScript semantics are deterministic under
the single-threaded event loop once the collaborator (the GraphQL admin API)
is fixed, so it is modelled as a function of an environment giving, per
product, the `userErrors` each of the two mutations reports.  `productData.map`
runs every callback synchronously up to its first `await`, so all debug lines
of the pure pipeline are pushed in product order before any response is
handled; each product that has qualifying variants then issues its
`productVariantsBulkUpdate` call, and, once that resolves, its `metafieldsSet`
call, whose `userErrors` (if any) append one more debug line.  Responses are
taken to resolve in issue order (first-in-first-out transport), which orders
those appended lines by product as well; `Promise.all` resolves only after
every callback has finished both calls.  Transport exceptions (rejected
promises) are timing-dependent and left outside this model. -/

/-- Collaborator behaviour for one product: the `userErrors` message lists
reported by the variant bulk update and by the metafield write. -/
structure ProductEnv where
  vuErrors : List String
  msErrors : List String

/-- The value the action returns to the caller. -/
structure ActionResult where
  success : Bool
  message : String
  debugLogs : List String
deriving Repr, DecidableEq

/-- The action return value together with the mutation calls the run issued:
`vuCalls` the `(productId, variants)` bulk updates, `msCalls` the
`(productId, serialized diamond total)` metafield writes. -/
structure RunOutput where
  result : ActionResult
  vuCalls : List (String × List VariantUpdate)
  msCalls : List (String × String)
deriving Repr, DecidableEq

/-- Products paired with their synchronous outcome, in batch order. -/
def pricedProducts (price making : ℚ) (diamondPrices : List (String × ℚ))
    (products : List ProductNode) : List (ProductNode × ProductOutcome) :=
  products.map (fun p => (p, processProduct price making diamondPrices p))

/-- The products that issue mutations: those whose variant list survived the
filters (`variants.length === 0` products return `null` early). -/
def updatingProducts (price making : ℚ) (diamondPrices : List (String × ℚ))
    (products : List ProductNode) : List (ProductNode × ProductOutcome) :=
  (pricedProducts price making diamondPrices products).filter
    (fun po => !po.2.updates.isEmpty)

/-- Debug lines pushed during the synchronous phase, in product order. -/
def runSyncLogs (price making : ℚ) (diamondPrices : List (String × ℚ))
    (products : List ProductNode) : List String :=
  (pricedProducts price making diamondPrices products).flatMap
    (fun po => po.2.logsPre)

/-- Debug lines recording `metafieldsSet` validation errors, appended after
the synchronous phase in product order. -/
def runMsLogs (price making : ℚ) (diamondPrices : List (String × ℚ))
    (products : List ProductNode) (env : String → ProductEnv) : List String :=
  (updatingProducts price making diamondPrices products).filterMap
    (fun po =>
      let es := (env po.1.id).msErrors
      if es.isEmpty then none
      else some ("Error updating metafield diamond_price for product \"" ++
        po.1.title ++ "\": " ++ String.intercalate ", " es))

/-- All `productVariantsBulkUpdate` validation errors, flattened in product
order (the `flatMap` after `Promise.all`). -/
def runVuErrors (price making : ℚ) (diamondPrices : List (String × ℚ))
    (products : List ProductNode) (env : String → ProductEnv) : List String :=
  (updatingProducts price making diamondPrices products).flatMap
    (fun po => (env po.1.id).vuErrors)

/-- The whole `action` handler on an already-decoded form: gold price and
making charges parsed with `parseFloat` (`|| 0` for the latter), the fail-fast
guard on a `NaN` or non-positive gold price, then the batch as described
above. -/
def runAction (priceStr makingStr : String)
    (diamondPrices : List (String × ℚ)) (productData : List ProductNode)
    (env : String → ProductEnv) : RunOutput :=
  let priceOpt := jsParseFloat priceStr
  let invalid : Bool := match priceOpt with
    | none => true
    | some p => p ≤ 0
  if invalid then
    { result :=
        { success := false
          message := "Invalid gold price provided."
          debugLogs := ["Invalid gold price."] }
      vuCalls := []
      msCalls := [] }
  else
    let price := priceOpt.getD 0
    let making := (jsParseFloat makingStr).getD 0
    let active := updatingProducts price making diamondPrices productData
    let logs := runSyncLogs price making diamondPrices productData ++
      runMsLogs price making diamondPrices productData env
    let errs := runVuErrors price making diamondPrices productData env
    { result :=
        if errs.isEmpty then
          { success := true
            message := "Product prices updated successfully"
            debugLogs := logs }
        else
          { success := false
            message := "Error updating prices: " ++ String.intercalate ", " errs
            debugLogs := logs }
      vuCalls := active.map (fun po => (po.1.id, po.2.updates))
      msCalls := active.map (fun po => (po.1.id, toFixed2 po.2.totalDiamondPrice)) }

/-! ### Observable call order -/

/-- One mutation call, tagged with the owning product. -/
inductive CallEvent where
  | vu (productId : String)
  | ms (productId : String)
deriving Repr, DecidableEq

/-- The order in which the run issues its mutation calls, as forced by the
event-loop semantics described above: every bulk variant update is issued
during the synchronous pass over `productData`, in batch order, before any
response arrives; each metafield write is issued only once its product's bulk
update has resolved, and responses resolve in issue order. -/
def runCallTrace (price making : ℚ) (diamondPrices : List (String × ℚ))
    (products : List ProductNode) : List CallEvent :=
  let ids := (updatingProducts price making diamondPrices products).map
    (fun po => po.1.id)
  ids.map CallEvent.vu ++ ids.map CallEvent.ms

/-! ### Claim-side models

Definitions in this block follow the wording of the specification claims they
formalize (they are compared against the source-side definitions above). -/

/-- Modelled from the claim on numeric attribute resolution: a missing
record, a decode error, a decode without a usable `value` member, or a `NaN`
parse all yield `0`; a decoded object with a `value` member parses that
member as a float; a value not opening with a brace or bracket parses the raw
string as a float. -/
def claimNumericResolve (metafields : List MetafieldNode) (key : String) : ℚ :=
  match getMetafieldValue metafields key with
  | none => 0
  | some val =>
    let trimmed := jsTrim val
    if headIs trimmed.data '{' || headIs trimmed.data '[' then
      match jsonParse trimmed with
      | some (.obj fields) =>
        match objGet fields "value" with
        | some jv => (jsParseFloat (jsCoerceToString jv)).getD 0
        | none => 0
      | _ => 0
    else (jsParseFloat val).getD 0

/-- Modelled from the gem-aggregation claim: the contribution of one slot,
`gemUnitPrices[trim(type)] * weight` when the trimmed type is non-empty and
`0` otherwise (an absent type contributes `0` through the lookup default). -/
def claimSlotContribution (gemUnitPrices : List (String × ℚ)) (p : ProductNode)
    (typeKey weightKey : String) : ℚ :=
  match getMetafieldValue p.metafields typeKey with
  | none => 0
  | some raw =>
    let t := jsTrim raw
    if t == "" then 0
    else ((gemUnitPrices.lookup t).getD 0) *
      getNumericMetafieldValue p.metafields weightKey

/-- Fuelled worker for `chunksOf` (the fuel makes the recursion structural,
so the kernel can evaluate it). -/
def chunksOfGo (n : ℕ) : ℕ → List ProductNode → List (List ProductNode)
  | 0, _ => []
  | _, [] => []
  | fuel + 1, x :: xs => (x :: xs.take (n - 1)) :: chunksOfGo n fuel (xs.drop (n - 1))

/-- Partition a list into consecutive chunks of the given size (the final
chunk may be shorter). -/
def chunksOf (n : ℕ) (l : List ProductNode) : List (List ProductNode) :=
  chunksOfGo n (l.length + 1) l

/-- Modelled from the batching claim: the call order the orchestrator would
produce if it partitioned the batch into groups of `groupSize`, ran each
group concurrently, and awaited a group (variant updates, then metafield
writes) before starting the next. -/
def specGroupedTrace (groupSize : ℕ) (price making : ℚ)
    (diamondPrices : List (String × ℚ)) (products : List ProductNode) :
    List CallEvent :=
  (chunksOf groupSize products).flatMap (fun g =>
    let ids := (updatingProducts price making diamondPrices g).map
      (fun po => po.1.id)
    ids.map CallEvent.vu ++ ids.map CallEvent.ms)

/-! ### Concrete inputs used by the closed theorems -/

/-- The variant of the full composition scenario: purity `18k`, allowed
finish, discount tag `10%`, gold weight 5. -/
def demoVariant : VariantNode :=
  { id := "v1", title := "18k Yellow Gold 10%", metafields := [⟨"custom", "weight", "5"⟩] }

/-- A qualifying variant with no discount tag. -/
def demoPlainVariant : VariantNode :=
  { id := "v2", title := "18k Yellow Gold", metafields := [⟨"custom", "weight", "5"⟩] }

/-- A qualifying variant whose discount tag `20%` has no configured factor. -/
def demoUnmatchedVariant : VariantNode :=
  { id := "v3", title := "18k Yellow Gold 20%", metafields := [⟨"custom", "weight", "5"⟩] }

/-- The gem-aggregation scenario: one active slot of type
`Round Solitaire 2ct+` and weight `1.5`, the other two slots absent. -/
def demoGemProduct : ProductNode :=
  { id := "p4", title := "Ring"
    metafields := [⟨"custom", "diamond_1", "Round Solitaire 2ct+"⟩,
                   ⟨"custom", "diamond_weight_1", "1.5"⟩]
    variants := [] }

/-- A variant used to reach the composer with a negative gem total. -/
def demoNegVariant : VariantNode :=
  { id := "v", title := "18k yellow gold 10%", metafields := [⟨"custom", "weight", "1"⟩] }

/-- A product whose single gem slot has a negative configured unit price. -/
def demoNegProduct : ProductNode :=
  { id := "p", title := "Ring"
    metafields := [⟨"custom", "diamond_1", "Gem"⟩,
                   ⟨"custom", "diamond_weight_1", "1"⟩]
    variants := [demoNegVariant] }

/-- Gem unit prices carrying a negative entry (reachable: the form accepts
any decimal). -/
def demoNegPrices : List (String × ℚ) := [("Gem", -100)]

/-- A product whose gem-weight metafield holds unparsable text. -/
def demoProductAbc : ProductNode :=
  { id := "p1", title := "Ring"
    metafields := [⟨"custom", "diamond_1", "Gem"⟩,
                   ⟨"custom", "diamond_weight_1", "abc"⟩]
    variants := [] }

/-- The same product with the weight replaced by the parsable `0`. -/
def demoProductZero : ProductNode :=
  { id := "p1", title := "Ring"
    metafields := [⟨"custom", "diamond_1", "Gem"⟩,
                   ⟨"custom", "diamond_weight_1", "0"⟩]
    variants := [] }

/-- A product with one qualifying variant, used in the orchestration runs. -/
def demoUpdProduct : ProductNode :=
  { id := "p7", title := "Ring", metafields := [], variants := [demoVariant] }

/-- Collaborator behaviour whose metafield write reports a validation error
while the variant update succeeds. -/
def demoMsErrEnv : String → ProductEnv := fun _ => ⟨[], ["boom"]⟩

/-- A batch of three one-variant products. -/
def demoThreeBatch : List ProductNode :=
  [{ id := "q1", title := "A", metafields := [], variants := [demoVariant] },
   { id := "q2", title := "B", metafields := [], variants := [demoVariant] },
   { id := "q3", title := "C", metafields := [], variants := [demoVariant] }]

/-- Collaborator behaviour rejecting the variant update of product `q2`
only. -/
def demoVuErrEnv : String → ProductEnv := fun pid =>
  if pid == "q2" then ⟨["Product 2 rejected"], []⟩ else ⟨[], []⟩

/-- Collaborator behaviour with no errors at all. -/
def demoCleanEnv : String → ProductEnv := fun _ => ⟨[], []⟩

/-- A six-product batch (each with one qualifying variant), exceeding the
claimed group size of five. -/
def demoSixProducts : List ProductNode :=
  [{ id := "1", title := "P1", metafields := [], variants := [⟨"w1", "18k yellow gold", []⟩] },
   { id := "2", title := "P2", metafields := [], variants := [⟨"w2", "18k yellow gold", []⟩] },
   { id := "3", title := "P3", metafields := [], variants := [⟨"w3", "18k yellow gold", []⟩] },
   { id := "4", title := "P4", metafields := [], variants := [⟨"w4", "18k yellow gold", []⟩] },
   { id := "5", title := "P5", metafields := [], variants := [⟨"w5", "18k yellow gold", []⟩] },
   { id := "6", title := "P6", metafields := [], variants := [⟨"w6", "18k yellow gold", []⟩] }]

/-! ### Helper lemmas -/

/-- Dropping a satisfied prefix twice is the same as dropping it once. -/
theorem dropWhile_dropWhile {α : Type} (p : α → Bool) (l : List α) :
    (l.dropWhile p).dropWhile p = l.dropWhile p := by
  induction l with
  | nil => rfl
  | cons a t ih =>
    cases h : p a with
    | true => simp [List.dropWhile_cons, h, ih]
    | false => simp [List.dropWhile_cons, h]

/-- The head surviving `dropWhile` fails the predicate. -/
theorem head_false_of_dropWhile {α : Type} (p : α → Bool) (l : List α) (a : α)
    (h : (l.dropWhile p).head? = some a) : p a = false := by
  induction l with
  | nil => cases h
  | cons b t ih =>
    cases hb : p b with
    | true =>
      rw [List.dropWhile_cons, if_pos hb] at h
      exact ih h
    | false =>
      rw [List.dropWhile_cons, if_neg (by simp [hb])] at h
      cases h
      exact hb

/-- `dropWhile` keeps the last element (or empties the list). -/
theorem getLast?_dropWhile {α : Type} (p : α → Bool) :
    ∀ l : List α, l.dropWhile p = [] ∨ (l.dropWhile p).getLast? = l.getLast?
  | [] => Or.inl rfl
  | a :: t => by
    cases h : p a with
    | true =>
      rw [List.dropWhile_cons, if_pos h]
      cases ht : List.dropWhile p t with
      | nil => exact Or.inl rfl
      | cons b r =>
        right
        rcases getLast?_dropWhile p t with h1 | h1
        · rw [ht] at h1; cases h1
        · rw [ht] at h1
          rw [h1]
          cases t with
          | nil => cases ht
          | cons c t2 => rw [List.getLast?_cons_cons]
    | false =>
      rw [List.dropWhile_cons, if_neg (by simp [h])]
      exact Or.inr rfl

/-- A list whose head fails the predicate is unchanged by `dropWhile`. -/
theorem dropWhile_of_head_false {α : Type} (p : α → Bool) (l : List α) (a : α)
    (h : l.head? = some a) (hp : p a = false) : l.dropWhile p = l := by
  cases l with
  | nil => cases h
  | cons b t =>
    cases h
    rw [List.dropWhile_cons, if_neg (by simp [hp])]

/-- The head of the fully trimmed list is the head after the leading trim. -/
theorem head?_trimBoth (l : List Char) (a : Char)
    (h : (trimBoth l).head? = some a) : (l.dropWhile jsWs).head? = some a := by
  unfold trimBoth at h
  rw [List.head?_reverse] at h
  rcases getLast?_dropWhile jsWs (l.dropWhile jsWs).reverse with h1 | h1
  · rw [h1] at h; cases h
  · rw [h1, List.getLast?_reverse] at h
    exact h

/-- Trimming is idempotent. -/
theorem trimBoth_idem (l : List Char) : trimBoth (trimBoth l) = trimBoth l := by
  cases hm : (trimBoth l).head? with
  | none =>
    have : trimBoth l = [] := by
      cases hl : trimBoth l with
      | nil => rfl
      | cons c r => rw [hl] at hm; cases hm
    rw [this]; rfl
  | some a =>
    have ha := head_false_of_dropWhile jsWs l a (head?_trimBoth l a hm)
    have h1 : List.dropWhile jsWs (trimBoth l) = trimBoth l :=
      dropWhile_of_head_false jsWs (trimBoth l) a hm ha
    show (((trimBoth l).dropWhile jsWs).reverse.dropWhile jsWs).reverse = trimBoth l
    rw [h1]
    show ((List.dropWhile jsWs
      ((List.dropWhile jsWs l).reverse)).reverse.reverse.dropWhile jsWs).reverse =
        trimBoth l
    rw [List.reverse_reverse, dropWhile_dropWhile]
    rfl

/-- String-level trim idempotence. -/
theorem jsTrim_idem (s : String) : jsTrim (jsTrim s) = jsTrim s := by
  unfold jsTrim
  have : (String.mk (trimBoth s.data)).data = trimBoth s.data := rfl
  rw [this, trimBoth_idem]

/-- If the first unskipped character can open neither a sign, a digit nor a
dot, `parseFloat` yields `NaN`. -/
theorem jsParseFloat_none_aux (c : Char) (t : List Char) (s : String)
    (hl0 : s.data.dropWhile jsWs = c :: t)
    (h1 : (c == '-') = false) (h2 : (c == '+') = false)
    (h3 : (c == '.') = false) (h4 : jsDigit c = false) :
    jsParseFloat s = none := by
  unfold jsParseFloat
  rw [hl0]
  simp only [headIs, h1, h2, h3, h4, Bool.or_self, Bool.or_false, Bool.false_or,
    if_false, Bool.false_eq_true, ite_false, List.takeWhile_cons, List.length_nil,
    List.drop_zero, List.isEmpty_nil, Bool.and_self, if_true]

/-- A value whose trimmed form opens with a brace or bracket is `NaN` under
`parseFloat`. -/
theorem jsParseFloat_none_of_brace (val : String)
    (h : (headIs (jsTrim val).data '{' || headIs (jsTrim val).data '[') = true) :
    jsParseFloat val = none := by
  rcases htb : (jsTrim val).data with _ | ⟨c, t⟩
  · rw [htb] at h; cases h
  · have hc : c = '{' ∨ c = '[' := by
      rw [htb] at h
      simp only [headIs, Bool.or_eq_true, beq_iff_eq] at h
      exact h
    have hh : (trimBoth val.data).head? = some c := by
      have hd : (jsTrim val).data = trimBoth val.data := rfl
      rw [hd] at htb
      rw [htb]
      rfl
    have h0 := head?_trimBoth val.data c hh
    rcases h0' : val.data.dropWhile jsWs with _ | ⟨c0, t0⟩
    · rw [h0'] at h0; cases h0
    · rw [h0'] at h0
      have hcc : c0 = c := by cases h0; rfl
      subst hcc
      rcases hc with hc | hc <;> subst hc <;>
        exact jsParseFloat_none_aux _ _ _ h0' (by decide) (by decide) (by decide)
          (by decide)

/-- A successful `find?` splits its list at the first hit. -/
theorem find?_layout {α : Type} (p : α → Bool) :
    ∀ (l : List α) (a : α), l.find? p = some a →
      ∃ l1 l2, l = l1 ++ a :: l2 ∧ p a = true ∧ ∀ x ∈ l1, p x = false
  | [], a => by intro h; cases h
  | b :: t, a => by
    intro h
    cases hb : p b with
    | true =>
      rw [List.find?_cons, hb] at h
      cases h
      exact ⟨[], t, rfl, hb, by intro x hx; cases hx⟩
    | false =>
      rw [List.find?_cons, hb] at h
      obtain ⟨l1, l2, he, hp, hall⟩ := find?_layout p t a h
      refine ⟨b :: l1, l2, by rw [he]; rfl, hp, ?_⟩
      intro x hx
      rcases List.mem_cons.mp hx with hx | hx
      · cases hx; exact hb
      · exact hall x hx

/-- Every configured discount factor is at most one. -/
theorem discount_factor_le_one (tok : String) (f : ℚ)
    (h : discountMap.lookup tok = some f) : f ≤ 1 := by
  simp only [discountMap, List.lookup_cons] at h
  by_cases h1 : tok == "10%"
  · simp [h1] at h; rw [← h]; norm_num
  · by_cases h2 : tok == "12%"
    · simp [h1, h2] at h; rw [← h]; norm_num
    · by_cases h3 : tok == "15%"
      · simp [h1, h2, h3] at h; rw [← h]; norm_num
      · simp [h1, h2, h3, List.lookup] at h

/-- Every karat key has a multiplier in the table. -/
theorem priceMap_lookup_total (k : String) (hk : k ∈ priceMapKeys) :
    ∃ m, priceMap.lookup k = some m := by
  fin_cases hk <;> exact ⟨_, rfl⟩

/-- With a positive parsed gold price the action reaches its batch phase; its
outcome is determined by the collected logs and variant-update errors. -/
theorem runAction_valid (priceStr makingStr : String)
    (dp : List (String × ℚ)) (ps : List ProductNode) (env : String → ProductEnv)
    (price : ℚ) (hp : jsParseFloat priceStr = some price) (hpos : 0 < price) :
    runAction priceStr makingStr dp ps env =
      { result :=
          if (runVuErrors price ((jsParseFloat makingStr).getD 0) dp ps
              env).isEmpty then
            { success := true
              message := "Product prices updated successfully"
              debugLogs := runSyncLogs price ((jsParseFloat makingStr).getD 0)
                  dp ps ++
                runMsLogs price ((jsParseFloat makingStr).getD 0) dp ps env }
          else
            { success := false
              message := "Error updating prices: " ++ String.intercalate ", "
                (runVuErrors price ((jsParseFloat makingStr).getD 0) dp ps env)
              debugLogs := runSyncLogs price ((jsParseFloat makingStr).getD 0)
                  dp ps ++
                runMsLogs price ((jsParseFloat makingStr).getD 0) dp ps env }
        vuCalls := (updatingProducts price ((jsParseFloat makingStr).getD 0)
            dp ps).map (fun po => (po.1.id, po.2.updates))
        msCalls := (updatingProducts price ((jsParseFloat makingStr).getD 0)
            dp ps).map
          (fun po => (po.1.id, toFixed2 po.2.totalDiamondPrice)) } := by
  unfold runAction
  rw [hp]
  have hneg : ¬ price ≤ 0 := not_le.mpr hpos
  simp only [Option.getD_some, decide_eq_false hneg, Bool.false_eq_true,
    if_false]

/-! ### Claim theorems -/

/-- C1: in the full composition scenario (gold price 8000, making charge 1200
per unit weight, purity tag `18k` with multiplier 0.76, weight 5, total gem
cost 30000, title containing `10%` with configured factor 0.9) the variant
qualifies and the composer yields gold-plus-making 36400 (making 6000),
discounted gem cost 27000, and the serialized prices `63400.00` and
`66400.00`. -/
theorem composition_full_scenario :
    variantQualifies demoVariant = true ∧
    priceMap.lookup "18k" = some (76/100) ∧
    discountMap.lookup "10%" = some (9/10) ∧
    (computeVariant 8000 1200 30000 demoVariant).karatKey = some "18k" ∧
    (computeVariant 8000 1200 30000 demoVariant).weight = 5 ∧
    (computeVariant 8000 1200 30000 demoVariant).makingChargesForWeight = 6000 ∧
    (computeVariant 8000 1200 30000 demoVariant).goldAndMakingCost = 36400 ∧
    (computeVariant 8000 1200 30000 demoVariant).compareAtPriceQ = 66400 ∧
    (computeVariant 8000 1200 30000 demoVariant).discountedDiamondCost = 27000 ∧
    (computeVariant 8000 1200 30000 demoVariant).updatedPriceQ = 63400 ∧
    (computeVariant 8000 1200 30000 demoVariant).update =
      { id := "v1", price := "63400.00", compareAtPrice := "66400.00" } := by
  decide

/-- C2 counterexample: with a (reachable) negative gem unit price the total
gem cost is negative, and for a qualifying discounted variant the computed
compare-at price is strictly below the final price. -/
theorem compare_at_ge_final_counterexample :
    variantQualifies demoNegVariant = true ∧
    totalDiamondPriceOf demoNegPrices demoNegProduct = -100 ∧
    (computeVariant 8000 1200 (totalDiamondPriceOf demoNegPrices demoNegProduct)
        demoNegVariant).compareAtPriceQ <
      (computeVariant 8000 1200 (totalDiamondPriceOf demoNegPrices demoNegProduct)
        demoNegVariant).updatedPriceQ := by
  decide

/-- C2 amended: whenever the total gem cost is nonnegative, the computed
final price never exceeds the computed compare-at price. -/
theorem compare_at_ge_final_of_nonneg_gem (price making totalD : ℚ)
    (v : VariantNode) (h : 0 ≤ totalD) :
    (computeVariant price making totalD v).updatedPriceQ ≤
      (computeVariant price making totalD v).compareAtPriceQ := by
  rcases h1 : jsDiscountToken v.title with _ | tok
  · simp [computeVariant, h1]
  · rcases h2 : discountMap.lookup tok with _ | f
    · simp [computeVariant, h1, h2]
    · by_cases h3 : f = 0
      · simp [computeVariant, h1, h2, h3]
      · have hf := discount_factor_le_one tok f h2
        have hmul := mul_le_of_le_one_right h hf
        simp [computeVariant, h1, h2, h3]
        linarith

/-- C2 amended, witnessed at the composition scenario values. -/
theorem compare_at_ge_final_witness :
    (0 : ℚ) ≤ 30000 ∧
    (computeVariant 8000 1200 30000 demoVariant).updatedPriceQ ≤
      (computeVariant 8000 1200 30000 demoVariant).compareAtPriceQ :=
  ⟨by norm_num,
   compare_at_ge_final_of_nonneg_gem 8000 1200 30000 demoVariant (by norm_num)⟩

/-- C3: a `NaN` or non-positive gold price makes the whole run fail before
any product is touched — the fixed failure result is returned and no variant
update and no metafield write is issued for any product. -/
theorem invalid_price_fails_fast (priceStr makingStr : String)
    (dp : List (String × ℚ)) (ps : List ProductNode) (env : String → ProductEnv)
    (h : jsParseFloat priceStr = none ∨
      ∃ p, jsParseFloat priceStr = some p ∧ p ≤ 0) :
    runAction priceStr makingStr dp ps env =
      { result := { success := false, message := "Invalid gold price provided.",
                    debugLogs := ["Invalid gold price."] },
        vuCalls := [], msCalls := [] } := by
  unfold runAction
  rcases h with h | ⟨p, hp, hle⟩
  · rw [h]
    rfl
  · rw [hp]
    simp only [decide_eq_true hle, if_pos]

/-- C3 witnessed at the non-positive price `0`. -/
theorem invalid_price_fails_fast_witness :
    (jsParseFloat "0" = none ∨ ∃ p, jsParseFloat "0" = some p ∧ p ≤ 0) ∧
    runAction "0" "1200" [] [demoUpdProduct] demoMsErrEnv =
      { result := { success := false, message := "Invalid gold price provided.",
                    debugLogs := ["Invalid gold price."] },
        vuCalls := [], msCalls := [] } :=
  ⟨Or.inr ⟨0, by decide, le_refl 0⟩,
   invalid_price_fails_fast "0" "1200" [] [demoUpdProduct] demoMsErrEnv
     (Or.inr ⟨0, by decide, le_refl 0⟩)⟩

/-- C4: the total gem cost is the sum of the three slot contributions
(specified as `gemUnitPrices[trim(type)] * weight` for the slots whose trimmed
type is non-empty, with absent types contributing zero), and in particular the
single-slot scenario with unit price 30000 and weight 1.5 totals 45000. -/
theorem gem_total_is_slot_sum (dp : List (String × ℚ)) (p : ProductNode) :
    totalDiamondPriceOf dp p =
      claimSlotContribution dp p "diamond_1" "diamond_weight_1" +
      claimSlotContribution dp p "diamond_2" "diamond_weight_2" +
      claimSlotContribution dp p "diamond_3" "diamond_weight_3" ∧
    totalDiamondPriceOf [("Round Solitaire 2ct+", 30000)] demoGemProduct =
      45000 := by
  constructor
  · unfold totalDiamondPriceOf selectedDiamondsOf slotPairs claimSlotContribution
      diamondTypeOf
    rcases h1 : getMetafieldValue p.metafields "diamond_1" with _ | r1 <;>
      rcases h2 : getMetafieldValue p.metafields "diamond_2" with _ | r2 <;>
        rcases h3 : getMetafieldValue p.metafields "diamond_3" with _ | r3 <;>
          (try simp [jsTrim_idem]) <;> (try split_ifs) <;>
            simp_all [jsTrim_idem] <;> ring
  · decide

/-- C5: a variant qualifies (and only then contributes a price result) iff
its lower-cased title contains an allowed color and some karat key; the karat
key it is priced with is the first key of the table order contained in the
title, regardless of position inside the title. -/
theorem classifier_iff_and_first_key (v : VariantNode) (vs : List VariantNode) :
    (variantQualifies v = true ↔
      ((∃ c ∈ allowedColors, jsIncludes (jsToLower v.title) c = true) ∧
       (∃ k ∈ priceMapKeys, jsIncludes (jsToLower v.title) k = true))) ∧
    ((vs.filter colorMatches).filter karatMatches = vs.filter variantQualifies) ∧
    (variantQualifies v = true →
      ∃ k l1 l2, karatKeyOf v = some k ∧ priceMapKeys = l1 ++ k :: l2 ∧
        jsIncludes (jsToLower v.title) k = true ∧
        ∀ k2 ∈ l1, jsIncludes (jsToLower v.title) k2 = false) := by
  refine ⟨?_, ?_, ?_⟩
  · simp [variantQualifies, colorMatches, karatMatches, List.any_eq_true]
  · rw [List.filter_filter]
    congr 1
    funext a
    simp [variantQualifies, Bool.and_comm]
  · intro hq
    have hk : karatMatches v = true := (Bool.and_eq_true _ _ ▸ hq).2
    obtain ⟨k0, hmem0, hinc0⟩ :=
      List.any_eq_true.mp (by simpa [karatMatches] using hk)
    have hsome : (priceMapKeys.find?
        (fun k => jsIncludes (jsToLower v.title) k)).isSome :=
      List.find?_isSome.mpr ⟨k0, hmem0, hinc0⟩
    obtain ⟨k, hfind⟩ := Option.isSome_iff_exists.mp hsome
    obtain ⟨l1, l2, hsplit, hpk, hall⟩ := find?_layout _ _ _ hfind
    exact ⟨k, l1, l2, hfind, hsplit, hpk, hall⟩

/-- C5 witnessed at the variant titled `18k Yellow Gold`. -/
theorem classifier_witness :
    variantQualifies demoPlainVariant = true ∧
    ∃ k l1 l2, karatKeyOf demoPlainVariant = some k ∧
      priceMapKeys = l1 ++ k :: l2 ∧
      jsIncludes (jsToLower demoPlainVariant.title) k = true ∧
      ∀ k2 ∈ l1, jsIncludes (jsToLower demoPlainVariant.title) k2 = false :=
  ⟨by decide,
   (classifier_iff_and_first_key demoPlainVariant []).2.2 (by decide)⟩

/-- C6 counterexample: the unparsable weight `abc` resolves to 0, yet no
trace line records it — the produced trace is byte-identical to the one for
the parsable value `0` and no line mentions the offending text, refuting the
claim that every unparsable value is logged for auditability. -/
theorem unparsable_not_logged_counterexample :
    getNumericMetafieldValue demoProductAbc.metafields "diamond_weight_1" = 0 ∧
    jsParseFloat "abc" = none ∧
    (processProduct 8000 1200 [("Gem", 30000)] demoProductAbc).logsPre =
      (processProduct 8000 1200 [("Gem", 30000)] demoProductZero).logsPre ∧
    ((processProduct 8000 1200 [("Gem", 30000)] demoProductAbc).logsPre.all
      (fun line => !(jsIncludes line "abc"))) = true := by
  decide

/-- C6 amended: numeric attribute resolution is total and agrees everywhere
with the claimed algorithm minus its logging clause — structured decode for
brace-opened values using the `value` member, raw `parseFloat` otherwise, and
`0` for a missing record, decode failure or `NaN` (silently, with no trace
entry). -/
theorem numeric_resolution_matches_claim (mfs : List MetafieldNode)
    (key : String) :
    getNumericMetafieldValue mfs key = claimNumericResolve mfs key := by
  unfold getNumericMetafieldValue claimNumericResolve
  cases h : getMetafieldValue mfs key with
  | none => rfl
  | some val =>
    dsimp only
    by_cases hv : (val == "") = true
    · have : val = "" := by simpa using hv
      subst this
      decide
    · rw [if_neg hv]
      by_cases hb : (headIs (jsTrim val).data '{' ||
          headIs (jsTrim val).data '[') = true
      · rw [if_pos hb, if_pos hb]
        cases hj : jsonParse (jsTrim val) with
        | none => simp [jsParseFloat_none_of_brace val hb]
        | some j =>
          cases j with
          | obj fields =>
            cases ho : objGet fields "value" with
            | none => simp [ho, jsParseFloat_none_of_brace val hb]
            | some jv => simp [ho]
          | null => simp [jsParseFloat_none_of_brace val hb]
          | bool b => simp [jsParseFloat_none_of_brace val hb]
          | num q => simp [jsParseFloat_none_of_brace val hb]
          | str s => simp [jsParseFloat_none_of_brace val hb]
          | arr xs => simp [jsParseFloat_none_of_brace val hb]
      · rw [if_neg hb, if_neg hb]

/-- C7 counterexample: a validation error reported by the external update
(the per-product metafield write) is only appended to the trace — the run
still reports success, refuting the claim that the overall outcome is a
failure whenever some product produced a captured validation error. -/
theorem batch_error_capture_counterexample :
    (runAction "8000" "1200" [] [demoUpdProduct] demoMsErrEnv).result.success =
      true ∧
    (demoMsErrEnv demoUpdProduct.id).msErrors = ["boom"] ∧
    (runAction "8000" "1200" [] [demoUpdProduct]
        demoMsErrEnv).result.debugLogs.contains
      "Error updating metafield diamond_price for product \"Ring\": boom" =
      true := by
  decide

/-- C7 amended: with a valid gold price and no pipeline exception,
variant-update validation errors do not abort the batch (every product's
updates are still issued), the run succeeds iff no such error was reported,
a failure message concatenates all reported messages in product order, the
collected trace is returned either way, and the outcome is unchanged by
metafield-write validation errors (which only add trace lines). -/
theorem batch_error_capture_amended (priceStr makingStr : String)
    (dp : List (String × ℚ)) (ps : List ProductNode)
    (env env2 : String → ProductEnv) (price : ℚ)
    (hp : jsParseFloat priceStr = some price) (hpos : 0 < price)
    (henv : ∀ pid, (env2 pid).vuErrors = (env pid).vuErrors) :
    ((runAction priceStr makingStr dp ps env).result.success = true ↔
      runVuErrors price ((jsParseFloat makingStr).getD 0) dp ps env = []) ∧
    (runVuErrors price ((jsParseFloat makingStr).getD 0) dp ps env ≠ [] →
      (runAction priceStr makingStr dp ps env).result.message =
        "Error updating prices: " ++ String.intercalate ", "
          (runVuErrors price ((jsParseFloat makingStr).getD 0) dp ps env)) ∧
    ((runAction priceStr makingStr dp ps env).result.debugLogs =
      runSyncLogs price ((jsParseFloat makingStr).getD 0) dp ps ++
        runMsLogs price ((jsParseFloat makingStr).getD 0) dp ps env) ∧
    ((runAction priceStr makingStr dp ps env).vuCalls =
      (updatingProducts price ((jsParseFloat makingStr).getD 0) dp ps).map
        (fun po => (po.1.id, po.2.updates))) ∧
    ((runAction priceStr makingStr dp ps env2).result.success =
      (runAction priceStr makingStr dp ps env).result.success) := by
  have hvu : runVuErrors price ((jsParseFloat makingStr).getD 0) dp ps env2 =
      runVuErrors price ((jsParseFloat makingStr).getD 0) dp ps env := by
    unfold runVuErrors
    congr 1
    funext po
    rw [henv]
  rw [runAction_valid priceStr makingStr dp ps env price hp hpos,
    runAction_valid priceStr makingStr dp ps env2 price hp hpos, hvu]
  cases he : (runVuErrors price ((jsParseFloat makingStr).getD 0) dp ps
      env).isEmpty with
  | true =>
    have he' := List.isEmpty_iff.mp he
    refine ⟨by simp [he'], fun hne => absurd he' hne, by simp, by simp, by simp⟩
  | false =>
    have he' : runVuErrors price ((jsParseFloat makingStr).getD 0) dp ps env ≠
        [] := by
      intro hnil
      rw [hnil] at he
      cases he
    refine ⟨by simp [he'], fun _ => by simp, by simp, by simp, by simp⟩

/-- C7 amended, witnessed on a three-product batch whose second product has
its variant update rejected. -/
theorem batch_error_capture_witness :
    jsParseFloat "8000" = some 8000 ∧ (0 : ℚ) < 8000 ∧
    ((runAction "8000" "1200" [] demoThreeBatch demoVuErrEnv).result.success =
        true ↔
      runVuErrors 8000 ((jsParseFloat "1200").getD 0) [] demoThreeBatch
        demoVuErrEnv = []) :=
  ⟨by decide, by norm_num,
   (batch_error_capture_amended "8000" "1200" [] demoThreeBatch demoVuErrEnv
     demoVuErrEnv 8000 (by decide) (by norm_num) (fun _ => rfl)).1⟩

/-- C8: the discount touches only the gem portion — for every variant,
discounted or not, compare-at and final price share the identical
gold-plus-making component (compare-at adds the full gem cost, final adds the
discounted one) — and when the title carries no discount token, or a token
with no configured factor, the discounted gem cost equals the full gem cost,
so both prices coincide. -/
theorem discount_gem_only (price making totalD : ℚ) (v : VariantNode) :
    ((computeVariant price making totalD v).compareAtPriceQ =
      (computeVariant price making totalD v).goldAndMakingCost + totalD) ∧
    ((computeVariant price making totalD v).updatedPriceQ =
      (computeVariant price making totalD v).goldAndMakingCost +
        (computeVariant price making totalD v).discountedDiamondCost) ∧
    ((jsDiscountToken v.title = none ∨
        ∃ tok, jsDiscountToken v.title = some tok ∧
          discountMap.lookup tok = none) →
      (computeVariant price making totalD v).discountedDiamondCost = totalD ∧
      (computeVariant price making totalD v).updatedPriceQ =
        (computeVariant price making totalD v).compareAtPriceQ) := by
  refine ⟨by simp [computeVariant], by simp [computeVariant], ?_⟩
  rintro (h | ⟨tok, h1, h2⟩)
  · simp [computeVariant, h]
  · simp [computeVariant, h1, h2]

/-- C8 witnessed at the title containing the unconfigured token `20%`: the
decomposition holds and the inner hypothesis is discharged concretely, so the
two prices coincide there. -/
theorem discount_gem_only_witness :
    ((computeVariant 8000 1200 30000 demoUnmatchedVariant).compareAtPriceQ =
      (computeVariant 8000 1200 30000 demoUnmatchedVariant).goldAndMakingCost +
        30000) ∧
    (jsDiscountToken demoUnmatchedVariant.title = none ∨
      ∃ tok, jsDiscountToken demoUnmatchedVariant.title = some tok ∧
        discountMap.lookup tok = none) ∧
    (computeVariant 8000 1200 30000 demoUnmatchedVariant).updatedPriceQ =
      (computeVariant 8000 1200 30000 demoUnmatchedVariant).compareAtPriceQ :=
  ⟨(discount_gem_only 8000 1200 30000 demoUnmatchedVariant).1,
   Or.inr ⟨"20%", by decide, by decide⟩,
   ((discount_gem_only 8000 1200 30000 demoUnmatchedVariant).2.2
     (Or.inr ⟨"20%", by decide, by decide⟩)).2⟩

/-- C9 counterexample: on a six-product batch the call order the code
produces (all six variant updates issued before any metafield write) differs
from the order required by groups of five awaited in turn. -/
theorem grouped_trace_counterexample :
    specGroupedTrace 5 8000 1200 [] demoSixProducts ≠
      runCallTrace 8000 1200 [] demoSixProducts := by
  decide

/-- C9 amended: the orchestrator runs the whole batch as one concurrent
group — its call order coincides with the grouped order for a group size
covering the entire batch, for every batch. -/
theorem single_group_trace (price making : ℚ) (dp : List (String × ℚ))
    (products : List ProductNode) :
    runCallTrace price making dp products =
      specGroupedTrace (products.length + 1) price making dp products := by
  cases products with
  | nil => rfl
  | cons x xs =>
    unfold specGroupedTrace chunksOf
    simp only [List.length_cons]
    rw [chunksOfGo]
    have h1 : xs.take (xs.length + 1 + 1 - 1) = xs :=
      List.take_of_length_le (by omega)
    have h2 : xs.drop (xs.length + 1 + 1 - 1) = [] :=
      List.drop_eq_nil_of_le (by omega)
    rw [h1, h2, chunksOfGo]
    · simp [runCallTrace]
    · omega

/-- C10: whenever a variant passes both classification filters, the karat
lookup succeeds with a genuine table multiplier, so the zero fallback in the
material-cost expression is never exercised. -/
theorem karat_fallback_unreachable (price making totalD : ℚ) (v : VariantNode)
    (h : variantQualifies v = true) :
    ∃ k m, karatKeyOf v = some k ∧ priceMap.lookup k = some m ∧
      (computeVariant price making totalD v).goldAndMakingCost =
        price * m * (computeVariant price making totalD v).weight +
          (computeVariant price making totalD v).makingChargesForWeight := by
  have hk : karatMatches v = true := (Bool.and_eq_true _ _ ▸ h).2
  obtain ⟨k0, hmem0, hinc0⟩ :=
    List.any_eq_true.mp (by simpa [karatMatches] using hk)
  have hsome : (priceMapKeys.find?
      (fun k => jsIncludes (jsToLower v.title) k)).isSome :=
    List.find?_isSome.mpr ⟨k0, hmem0, hinc0⟩
  obtain ⟨k, hfind⟩ := Option.isSome_iff_exists.mp hsome
  have hmem := List.mem_of_find?_eq_some hfind
  obtain ⟨m, hm⟩ := priceMap_lookup_total k hmem
  have hkk : karatKeyOf v = some k := hfind
  refine ⟨k, m, hkk, hm, ?_⟩
  simp [computeVariant, hkk, hm]

/-- C10 witnessed at the qualifying variant titled `18k Yellow Gold`. -/
theorem karat_fallback_unreachable_witness :
    variantQualifies demoPlainVariant = true ∧
    ∃ k m, karatKeyOf demoPlainVariant = some k ∧
      priceMap.lookup k = some m ∧
      (computeVariant 8000 1200 0 demoPlainVariant).goldAndMakingCost =
        8000 * m * (computeVariant 8000 1200 0 demoPlainVariant).weight +
          (computeVariant 8000 1200 0 demoPlainVariant).makingChargesForWeight :=
  ⟨by decide, karat_fallback_unreachable 8000 1200 0 demoPlainVariant (by decide)⟩

end GoldPrice
